import Mathlib

/-!
Shallow embedding of the GS1 barcode decoding engine of the
Parami Pharmacy System (source: `parseBarcode`, `processAI`,
`validateGTIN`, `parseGS1Date`, `deriveNDC`, `AI_RULES`).

JavaScript numbers that can be `NaN` are modelled as `Option Int`
(`none` = `NaN`); the wall clock read by `new Date()` is an explicit
`now : Int` parameter (milliseconds since the Unix epoch); a thrown
`TypeError` (property access on `undefined`) is modelled by the whole
decode returning `none`.
-/

namespace GS1

/-- JavaScript number restricted to the integer values arising in this
engine; `none` models `NaN`. -/
abbrev JSNum := Option Int

/-- Whitespace recognised by JavaScript `trim` / `parseInt` (the subset
relevant here). -/
def isJsSpace (c : Char) : Bool :=
  c == ' ' || c == '\t' || c == '\n' || c == '\r' || c == '\x0B' ||
  c == '\x0C' || c == ' '

/-- JavaScript `String.prototype.trim`. -/
def jsTrim (cs : List Char) : List Char :=
  ((cs.dropWhile isJsSpace).reverse.dropWhile isJsSpace).reverse

/-- Addition with `NaN` propagation. -/
def jsAdd (a b : JSNum) : JSNum :=
  match a, b with
  | some x, some y => some (x + y)
  | _, _ => none

/-- Subtraction with `NaN` propagation. -/
def jsSub (a b : JSNum) : JSNum :=
  match a, b with
  | some x, some y => some (x - y)
  | _, _ => none

/-- JavaScript `a > k` (false when `a` is `NaN`). -/
def jsGt (a : JSNum) (k : Int) : Bool :=
  match a with
  | some x => k < x
  | none => false

/-- Decimal digits of a natural number, most significant first
(fuel-bounded division loop; 20 digits are ample for every value the
engine produces). -/
def natToCharsAux : Nat → Nat → List Char → List Char
  | 0, _, acc => acc
  | fuel + 1, n, acc =>
    if n < 10 then Char.ofNat (48 + n) :: acc
    else natToCharsAux fuel (n / 10) (Char.ofNat (48 + n % 10) :: acc)

/-- JavaScript `String(n)` for a natural number. -/
def natToChars (n : Nat) : List Char :=
  natToCharsAux 20 n []

/-- JavaScript `String(i)` for an integer. -/
def intToChars (i : Int) : List Char :=
  if i < 0 then '-' :: natToChars i.natAbs else natToChars i.toNat

/-- JavaScript `String(x)` for a possibly-`NaN` number. -/
def jsNumChars (a : JSNum) : List Char :=
  match a with
  | some i => intToChars i
  | none => "NaN".data

/-- JavaScript `.padStart(2, '0')`. -/
def pad2 (cs : List Char) : List Char :=
  if cs.length < 2 then '0' :: cs else cs

/-- Numeric value of a decimal digit run (used by `parseInt`). -/
def digitsToNat (cs : List Char) : Nat :=
  cs.foldl (fun a c => a * 10 + (c.toNat - 48)) 0

/-- Longest decimal-digit prefix, or `NaN` if there is none. -/
def parseDigitsFirst (cs : List Char) : Option Nat :=
  let ds := cs.takeWhile Char.isDigit
  if ds.isEmpty then none else some (digitsToNat ds)

/-- Does the text start with a `0x`/`0X` hexadecimal indicator? -/
def isHexIndicator (cs : List Char) : Bool :=
  match cs with
  | c0 :: c1 :: _ => c0 == '0' && (c1 == 'x' || c1 == 'X')
  | _ => false

/-- Numeric value of a hexadecimal digit run, or `NaN` if empty. -/
def parseHexFirst (cs : List Char) : Option Nat :=
  let ds := cs.takeWhile fun c =>
    c.isDigit || ('a' ≤ c && c ≤ 'f') || ('A' ≤ c && c ≤ 'F')
  if ds.isEmpty then none
  else some (ds.foldl (fun a c =>
    a * 16 + (if c.isDigit then c.toNat - 48
              else if 'a' ≤ c then c.toNat - 87 else c.toNat - 55)) 0)

/-- Unsigned part of JavaScript `parseInt` (radix unspecified). -/
def parseUnsigned (cs : List Char) : Option Nat :=
  if isHexIndicator cs then parseHexFirst (cs.drop 2)
  else parseDigitsFirst cs

/-- JavaScript `parseInt(s)`: skip whitespace, optional sign, then the
longest numeric prefix; `NaN` (`none`) when no digits follow. -/
def parseIntJS (cs0 : List Char) : JSNum :=
  let cs := cs0.dropWhile isJsSpace
  match cs with
  | [] => none
  | c :: rest =>
    if c = '-' then (parseUnsigned rest).map (fun n => -(n : Int))
    else if c = '+' then (parseUnsigned rest).map (fun n => (n : Int))
    else (parseUnsigned (c :: rest)).map (fun n => (n : Int))

/-- Gregorian leap-year test (as implemented by JavaScript `Date`). -/
def isLeap (y : Int) : Bool :=
  (y % 4 == 0 && y % 100 != 0) || y % 400 == 0

/-- Number of days in month `m` (1-12) of year `y`. -/
def daysInMonth (y m : Int) : Int :=
  if m = 2 then (if isLeap y then 29 else 28)
  else if m = 4 ∨ m = 6 ∨ m = 9 ∨ m = 11 then 30 else 31

/-- Days since 1970-01-01 of the civil date `y-m-d` with `m ∈ [1,12]`
(`d` may be any integer: `Date` rolls surplus days over exactly). -/
def civilDays (y m d : Int) : Int :=
  let y' := if m ≤ 2 then y - 1 else y
  let era := y' / 400
  let yoe := y' - era * 400
  let mp := (m + 9) % 12
  let doy := (153 * mp + 2) / 5 + d - 1
  let doe := yoe * 365 + yoe / 4 - yoe / 100 + doy
  era * 146097 + doe - 719468

/-- `new Date(y, m, 0).getDate()`: `Date` normalises the month index
by floor division and day `0` is the last day of the preceding month. -/
def jsLastDayOfPrevMonth (y m : JSNum) : JSNum :=
  match y, m with
  | some y, some m =>
    let ym := y * 12 + m - 1
    some (daysInMonth (ym / 12) (ym % 12 + 1))
  | _, _ => none

/-- Epoch day count of `new Date(y, mIdx, d)` (month index normalised
by floor division, surplus days rolled over); `none` = Invalid Date. -/
def jsDateDays (y mIdx d : JSNum) : Option Int :=
  match y, mIdx, d with
  | some y, some m, some d =>
    let ym := y * 12 + m
    some (civilDays (ym / 12) (ym % 12 + 1) 1 + (d - 1))
  | _, _, _ => none

/-- Ceiling division of integers (`Math.ceil(a / b)` for `b > 0`). -/
def ceilDivInt (a b : Int) : Int :=
  -((-a) / b)

/-- Time-independent part of a decoded GS1 date: the ISO-formatted text
and the epoch-millisecond timestamp of the date pinned to 23:59:59.999
(`none` = Invalid Date). -/
structure DateCore where
  iso : String
  dateMs : Option Int
  deriving Repr, DecidableEq

/-- Day resolution of the date decoder: day `00` becomes
`new Date(2000 + yy, mm, 0).getDate()` (the last day of month `mm`),
any other day value is kept as parsed. -/
def resolvedDay (yy mm dd : JSNum) : JSNum :=
  if dd = some 0 then jsLastDayOfPrevMonth (jsAdd (some 2000) yy) mm else dd

/-- Two-digit-year pivot of the date decoder: `yy > 70` maps to
`1900 + yy`, anything else (including `NaN`) to `2000 + yy`. -/
def pivotYear (yy : JSNum) : JSNum :=
  if jsGt yy 70 then jsAdd (some 1900) yy else jsAdd (some 2000) yy

/-- The ISO text the date decoder formats:
`fullYear-MM-DD` from the pivoted year, the raw month and the resolved
day, without re-normalising month or day. -/
def dateIso (yy mm dd : JSNum) : String :=
  String.mk (jsNumChars (pivotYear yy) ++ '-' :: pad2 (jsNumChars mm) ++
             '-' :: pad2 (jsNumChars (resolvedDay yy mm dd)))

/-- The end-of-day timestamp the date decoder builds:
`new Date(fullYear, mm - 1, day)` with hours pinned to 23:59:59.999. -/
def dateMsOf (yy mm dd : JSNum) : Option Int :=
  (jsDateDays (pivotYear yy) (jsSub mm (some 1)) (resolvedDay yy mm dd)).map
    (fun d => d * 86400000 + 86399999)

/-- `parseGS1Date` without the wall-clock comparison: source helper
`parseGS1Date` reads `YY`, `MM`, `DD` with `parseInt`, resolves day `00`
to the last day of the month, pivots the year at 70, builds the
end-of-day timestamp and formats the ISO text. Returns `none` only when
the input is shorter than 6 characters. -/
def parseGS1DateCore (cs : List Char) : Option DateCore :=
  if cs.length < 6 then none
  else
    some ⟨dateIso (parseIntJS (cs.take 2)) (parseIntJS ((cs.drop 2).take 2))
            (parseIntJS ((cs.drop 4).take 2)),
          dateMsOf (parseIntJS (cs.take 2)) (parseIntJS ((cs.drop 2).take 2))
            (parseIntJS ((cs.drop 4).take 2))⟩

/-- Full decoded-date record of source `parseGS1Date`, including the
expiration verdict against the injected wall clock `now`. -/
structure DateInfo where
  iso : String
  dateMs : Option Int
  isExpired : Bool
  deriving Repr, DecidableEq

/-- Source helper `parseGS1Date`; `isExpired` compares the end-of-day
timestamp with `now` (`false` for an Invalid Date, as `NaN < t` is). -/
def parseGS1Date (now : Int) (cs : List Char) : Option DateInfo :=
  (parseGS1DateCore cs).map fun c =>
    ⟨c.iso, c.dateMs, match c.dateMs with | some t => decide (t < now) | none => false⟩

/-- Numeric value of a digit character (JavaScript `Number(c)` for a
digit). -/
def charValN (c : Char) : Nat :=
  c.toNat - 48

/-- `reduce((acc, digit, index) => acc + digit * (index % 2 === 0 ? 3 : 1), 0)`
of source `validateGTIN`, with explicit running index. -/
def jsReduceSum : List Nat → Nat → Nat → Nat
  | [], _, acc => acc
  | d :: rest, idx, acc =>
    jsReduceSum rest (idx + 1) (acc + d * (if idx % 2 = 0 then 3 else 1))

/-- Source helper `validateGTIN`: exactly 14 decimal digits, weighted
sum of the reversed first 13 digits (weights 3/1 alternating from the
reversed start), check digit must equal the next multiple of ten minus
the sum. `Math.ceil(sum / 10) * 10` is `((sum + 9) / 10) * 10` on
naturals. -/
def validateGTIN (gtin : String) : Bool :=
  if gtin.data.length = 14 ∧ gtin.data.all Char.isDigit then
    (gtin.data.map charValN).getLastD 0 ==
      ((jsReduceSum (gtin.data.map charValN).dropLast.reverse 0 0 + 9) / 10) * 10 -
        jsReduceSum (gtin.data.map charValN).dropLast.reverse 0 0
  else false

/-- Source helper `deriveNDC`: characters 2-12 of the trade item number,
grouped 5-4-2, provided exactly 11 characters remain. -/
def deriveNDC (gtin : String) : Option String :=
  if gtin.data.isEmpty then none
  else
    let core := (gtin.data.drop 2).take 11
    if core.length = 11 then
      some (String.mk (core.take 5 ++ '-' :: (core.drop 5).take 4 ++ '-' :: core.drop 9))
    else none

/-- Semantic type of an Application Identifier (`'date' | 'string' | 'number'`). -/
inductive AIType where
  | date
  | str
  | num
  deriving Repr, DecidableEq

/-- One entry of the `AI_RULES` dictionary. -/
structure AIRule where
  label : String
  fixedLength : Option Nat := none
  maxLength : Option Nat := none
  type : AIType
  deriving Repr, DecidableEq

/-- The `AI_RULES` dictionary in source (insertion) order. -/
def AI_RULES : List (String × AIRule) :=
  [("00", ⟨"SSCC", some 18, none, .str⟩),
   ("01", ⟨"GTIN", some 14, none, .str⟩),
   ("02", ⟨"GTIN of Content", some 14, none, .str⟩),
   ("10", ⟨"Batch/Lot", none, some 20, .str⟩),
   ("11", ⟨"Prod. Date", some 6, none, .date⟩),
   ("12", ⟨"Due Date", some 6, none, .date⟩),
   ("13", ⟨"Pack Date", some 6, none, .date⟩),
   ("15", ⟨"Best Before", some 6, none, .date⟩),
   ("17", ⟨"Expiration", some 6, none, .date⟩),
   ("20", ⟨"Variant", some 2, none, .str⟩),
   ("21", ⟨"Serial No", none, some 20, .str⟩),
   ("30", ⟨"Count", none, some 8, .num⟩),
   ("37", ⟨"Count", none, some 8, .num⟩),
   ("240", ⟨"Addl. Prod ID", none, some 30, .str⟩),
   ("241", ⟨"Cust. Part No", none, some 30, .str⟩),
   ("250", ⟨"Secondary Serial", none, some 30, .str⟩),
   ("400", ⟨"Customer PO", none, some 30, .str⟩),
   ("410", ⟨"Ship to GLN", some 13, none, .str⟩),
   ("420", ⟨"Ship to Post", none, some 20, .str⟩),
   ("7003", ⟨"Expiry Time", some 10, none, .date⟩),
   ("8003", ⟨"GRAI", none, some 30, .str⟩),
   ("703", ⟨"Proc. Date", some 10, none, .date⟩)]

/-- `Object.keys(AI_RULES).sort((a, b) => b.length - a.length)`: the key
list stably sorted by decreasing length (the result of the stable sort,
written out). -/
def aiKeys : List String :=
  ["7003", "8003",
   "240", "241", "250", "400", "410", "420", "703",
   "00", "01", "02", "10", "11", "12", "13", "15", "17", "20", "21", "30", "37"]

/-- JavaScript property lookup `AI_RULES[ai]`. -/
def lookupRule (ai : String) : Option AIRule :=
  (AI_RULES.find? (fun p => p.1 == ai)).map (·.2)

/-- Source interface `GS1Element`. -/
structure GS1Element where
  ai : String
  label : String
  value : String
  rawValue : String
  isValid : Bool
  deriving Repr, DecidableEq

/-- The `elements` record: an insertion-ordered map keyed by AI code. -/
abbrev Elements := List (String × GS1Element)

/-- JavaScript object assignment `obj[k] = v` (overwrite in place, or
append preserving insertion order). -/
def recInsert (m : Elements) (k : String) (v : GS1Element) : Elements :=
  if m.any (fun p => p.1 == k) then
    m.map (fun p => if p.1 == k then (k, v) else p)
  else m ++ [(k, v)]

/-- JavaScript property read `obj[k]`. -/
def recGet (m : Elements) (k : String) : Option GS1Element :=
  (m.find? (fun p => p.1 == k)).map (·.2)

/-- Source union `'GS1-DataMatrix' | 'GS1-128' | 'EAN-13' | 'UPC-A' | 'UNKNOWN'`. -/
inductive BarcodeType where
  | dataMatrix
  | gs1_128
  | ean13
  | upcA
  | unknown
  deriving Repr, DecidableEq

/-- Source interface `GS1ParsedData`. -/
structure GS1ParsedData where
  success : Bool
  type : BarcodeType
  elements : Elements
  gtin : Option String := none
  expiryDate : Option String := none
  batchNumber : Option String := none
  serialNumber : Option String := none
  ndc : Option String := none
  isExpired : Bool
  daysToExpiry : Option JSNum := none
  warnings : List String
  rawData : String
  deriving Repr, DecidableEq

/-- Element validity after the AI `01` checksum dispatch (`true` for
every other AI at this stage). -/
def gtinValid (aiS : String) (value : List Char) : Bool :=
  if aiS = "01" then validateGTIN (String.mk value) else true

/-- Warning produced by the AI `01` checksum dispatch. -/
def gtinWarning (aiS : String) (value : List Char) : List String :=
  if aiS = "01" ∧ validateGTIN (String.mk value) = false then
    ["Invalid GTIN Check Digit"]
  else []

/-- Source helper `processAI`: validates one (AI, raw value) pair and
stores the element. Looking up an AI absent from `AI_RULES` makes the
JavaScript throw on `rule.type`; that is the `none` outcome. Warnings
are appended in source order (checksum warning first, then a date
warning). -/
def processAI (aiS : String) (value : List Char) (elements : Elements)
    (warnings : List String) : Option (Elements × List String) :=
  match lookupRule aiS with
  | none => none
  | some rule =>
    match rule.type with
    | .date =>
      match parseGS1DateCore value with
      | none =>
        some (recInsert elements aiS
                ⟨aiS, rule.label, String.mk value, String.mk value, false⟩,
              (warnings ++ gtinWarning aiS value) ++ ["Invalid Date for AI (" ++ aiS ++ ")"])
      | some d =>
        some (recInsert elements aiS
                ⟨aiS, rule.label, d.iso, String.mk value, gtinValid aiS value⟩,
              warnings ++ gtinWarning aiS value)
    | _ =>
      some (recInsert elements aiS
              ⟨aiS, rule.label, String.mk value, String.mk value, gtinValid aiS value⟩,
            warnings ++ gtinWarning aiS value)

/-- The GS1 group separator (ASCII 29). -/
def gsChar : Char := '\x1D'

/-- JavaScript `split(String.fromCharCode(29))`. -/
def splitGS : List Char → List (List Char)
  | [] => [[]]
  | c :: cs =>
    if c = gsChar then [] :: splitGS cs
    else
      match splitGS cs with
      | p :: ps => (c :: p) :: ps
      | [] => [[c]]

/-- JavaScript `join(String.fromCharCode(29))`. -/
def joinGS : List (List Char) → List Char
  | [] => []
  | [p] => p
  | p :: ps => p ++ gsChar :: joinGS ps

/-- First entry of the sorted key list whose code prefixes the stream
(the inner `for` loop of the raw tokenizer breaks at this key whether or
not extraction then succeeds). -/
def findAI (stream : List Char) : Option String :=
  aiKeys.find? (fun ai => ai.data.isPrefixOf stream)

/-- One step of the raw tokenizer: the matched AI, extracted value and
remaining stream; `none` when no key prefixes the stream, the stream is
too short for a fixed-length value, or the extracted value is empty
(all of which make the source loop emit an unparsed-segment warning and
stop). -/
def rawStep (stream : List Char) : Option (String × List Char × List Char) :=
  match findAI stream with
  | none => none
  | some ai =>
    match lookupRule ai with
    | none => none
    | some rule =>
      match rule.fixedLength with
      | some n =>
        if ai.length + n ≤ stream.length then
          some (ai, (stream.drop ai.length).take n, (stream.drop ai.length).drop n)
        else none
      | none =>
        match rule.maxLength with
        | some maxLen =>
          -- variable length: split everything after the code on the group
          -- separator; one part and over-long means truncate at maxLen,
          -- several parts means take the first and resume after the
          -- separator, otherwise consume the whole remainder; an empty
          -- extracted value aborts the step (`if (value)` in source)
          match splitGS (stream.drop ai.length) with
          | [] => none
          | [_] =>
            if maxLen < (stream.drop ai.length).length then
              if ((stream.drop ai.length).take maxLen).isEmpty then none
              else some (ai, (stream.drop ai.length).take maxLen,
                         (stream.drop ai.length).drop maxLen)
            else
              if (stream.drop ai.length).isEmpty then none
              else some (ai, stream.drop ai.length, [])
          | p :: ps =>
            if p.isEmpty then none else some (ai, p, joinGS ps)
        | none => none

/-- The warning recorded when no AI rule can consume the remaining
stream (a 10-character preview, as in source). -/
def unparsedWarning (stream : List Char) : String :=
  String.mk ("Unparsed data segment: ".data ++ stream.take 10 ++ "...".data)

/-- The raw-stream tokenizer loop (fuel-bounded; the fuel
`stream.length + 1` provably never runs out, see `rawLoopF_congr`). -/
def rawLoopF : Nat → List Char → Elements → List String →
    Option (Elements × List String)
  | 0, _, e, w => some (e, w)
  | fuel + 1, stream, e, w =>
    if stream.isEmpty then some (e, w)
    else
      match rawStep stream with
      | none => some (e, w ++ [unparsedWarning stream])
      | some (ai, value, next) =>
        match processAI ai value e w with
        | none => none
        | some (e', w') => rawLoopF fuel next e' w'

/-- Leftmost match of `/\((\d+)\)([^(]+)/` at the head of the text:
`(`, a maximal nonempty digit run, `)`, then a maximal nonempty run of
non-`(` characters; returns (AI digits, value, rest of text). -/
def bracketMatchHead (cs : List Char) : Option (List Char × List Char × List Char) :=
  match cs with
  | '(' :: rest =>
    if (rest.takeWhile Char.isDigit).isEmpty then none
    else
      match rest.dropWhile Char.isDigit with
      | ')' :: r2 =>
        if (r2.takeWhile (fun c => c ≠ '(')).isEmpty then none
        else some (rest.takeWhile Char.isDigit,
                   r2.takeWhile (fun c => c ≠ '('),
                   r2.dropWhile (fun c => c ≠ '('))
      | _ => none
  | _ => none

/-- All matches of the global regex `/\((\d+)\)([^(]+)/g` in order
(fuel-bounded scan; fuel `cs.length` suffices, see
`bracketMatchesF_congr`). -/
def bracketMatchesF : Nat → List Char → List (List Char × List Char)
  | 0, _ => []
  | fuel + 1, cs =>
    match bracketMatchHead cs with
    | some (ai, v, rest) => (ai, v) :: bracketMatchesF fuel rest
    | none =>
      match cs with
      | [] => []
      | _ :: t => bracketMatchesF fuel t

/-- All bracketed (AI, value) matches of the human-readable convention. -/
def bracketMatches (cs : List Char) : List (List Char × List Char) :=
  bracketMatchesF cs.length cs

/-- Fold of `processAI` over the bracketed matches, in match order. -/
def processMatches : List (List Char × List Char) → Elements → List String →
    Option (Elements × List String)
  | [], e, w => some (e, w)
  | (ai, v) :: rest, e, w =>
    match processAI (String.mk ai) v e w with
    | none => none
    | some (e', w') => processMatches rest e' w'

/-- The stream tokenizer: bracketed convention when the stream contains
both parentheses, raw fixed-length/separator convention otherwise. -/
def tokenizeStream (rawData : List Char) : Option (Elements × List String) :=
  if rawData.contains '(' && rawData.contains ')' then
    processMatches (bracketMatches rawData) [] []
  else
    rawLoopF (rawData.length + 1) rawData [] []

/-- Strip a known 3-character symbology identifier (`]d2` or `]C1`). -/
def stripSymb (cs : List Char) : List Char :=
  if ("]d2".data).isPrefixOf cs then cs.drop 3
  else if ("]C1".data).isPrefixOf cs then cs.drop 3
  else cs

/-- `/^\d{12,13}$/` on the stripped input. -/
def isLinearShape (r : List Char) : Bool :=
  r.all Char.isDigit && (r.length == 12 || r.length == 13)

/-- `padStart(14, '0')`. -/
def pad14 (r : List Char) : List Char :=
  List.replicate (14 - r.length) '0' ++ r

/-- Condition of the EAN/UPC short-circuit: linear shape and valid
checksum after zero-padding. -/
def linearOK (r : List Char) : Bool :=
  isLinearShape r && validateGTIN (String.mk (pad14 r))

/-- The short-circuit result for a valid linear EAN/UPC code (the
`rawData` field is filled in by `parseBarcode`). -/
def earlyResult (rawData : List Char) : GS1ParsedData :=
  { success := true
    type := if rawData.length = 13 then .ean13 else .upcA
    elements := [("01", ⟨"01", "GTIN", String.mk (pad14 rawData), String.mk rawData, true⟩)]
    gtin := some (String.mk (pad14 rawData))
    isExpired := false
    warnings := []
    rawData := "" }

/-- JavaScript truthiness of an optional string field. -/
def optTruthy (o : Option String) : Bool :=
  match o with
  | some s => !s.isEmpty
  | none => false

/-- Derivation of `expiryDate`, `isExpired` and `daysToExpiry` from
element `17`: the source re-runs `parseGS1Date` on the element
(already ISO-formatted) `value`, compares the end-of-day timestamp with
`new Date()` and ceil-divides the millisecond difference by a day. -/
def assembleExpiry (now : Int) (elements : Elements) :
    Option String × Bool × Option JSNum :=
  match recGet elements "17" with
  | some el =>
    match parseGS1DateCore el.value.data with
    | some di =>
      (some di.iso,
       (match di.dateMs with | some t => decide (t < now) | none => false),
       some (di.dateMs.map (fun t => ceilDivInt (t - now) 86400000)))
    | none => (none, false, none)
  | none => (none, false, none)

/-- Barcode-type detection of the result assembler: an element `01`
plus a truthy batch/serial/expiry field means DataMatrix, an element
`01` alone means GS1-128, anything else keeps the initial Unknown. -/
def assembleType (now : Int) (elements : Elements) : BarcodeType :=
  if (recGet elements "01").isSome &&
     (optTruthy ((recGet elements "10").map (fun el => el.value)) ||
      optTruthy ((recGet elements "21").map (fun el => el.value)) ||
      optTruthy (assembleExpiry now elements).1) then .dataMatrix
  else if (recGet elements "01").isSome then .gs1_128
  else .unknown

/-- The result assembler: derives `gtin`/`ndc` from element `01`,
the expiry fields from element `17` (see `assembleExpiry`),
`batchNumber`/`serialNumber` from elements `10`/`21`, classifies the
barcode type from field presence/truthiness, and computes the success
flag (`rawData` is filled in by `parseBarcode`). -/
def assemble (now : Int) (elements : Elements) (warnings : List String) : GS1ParsedData :=
  { success := !elements.isEmpty && warnings.isEmpty
    type := assembleType now elements
    elements := elements
    gtin := (recGet elements "01").map (fun el => el.value)
    expiryDate := (assembleExpiry now elements).1
    batchNumber := (recGet elements "10").map (fun el => el.value)
    serialNumber := (recGet elements "21").map (fun el => el.value)
    ndc := match recGet elements "01" with
           | some el => deriveNDC el.value
           | none => none
    isExpired := (assembleExpiry now elements).2.1
    daysToExpiry := (assembleExpiry now elements).2.2
    warnings := warnings
    rawData := "" }

/-- The composite-stream path: tokenize then assemble. -/
def compositeParse (now : Int) (rawData : List Char) : Option GS1ParsedData :=
  (tokenizeStream rawData).map (fun ew => assemble now ew.1 ew.2)

/-- The engine on the already-trimmed input: symbology stripping, the
EAN/UPC fast path, otherwise the composite-stream path. -/
def parseCore (now : Int) (trimmed : List Char) : Option GS1ParsedData :=
  if linearOK (stripSymb trimmed) then some (earlyResult (stripSymb trimmed))
  else compositeParse now (stripSymb trimmed)

/-- Source entry point `parseBarcode`: trims the input for parsing but
echoes the original text in `rawData`; `none` models the `TypeError`
thrown when a bracketed AI is absent from `AI_RULES`. -/
def parseBarcode (now : Int) (input : String) : Option GS1ParsedData :=
  (parseCore now (jsTrim input.data)).map (fun r => { r with rawData := input })

/-- The input after trimming and symbology-prefix stripping (the text
the classifier and tokenizer actually see). -/
def strippedOf (input : String) : List Char :=
  stripSymb (jsTrim input.data)

/-! Specification-side definitions, written from the wording of the
claims (for comparison against the source-derived definitions above). -/

/-- Alternating 3/1-weighted digit sum, as the specification words it:
positions with even 0-based index (from the start of the given list)
weigh 3, odd positions weigh 1. -/
def altWeight : Bool → List Nat → Nat
  | _, [] => 0
  | w3, d :: rest => (if w3 then 3 * d else d) + altWeight (!w3) rest

/-- Weighted sum of the specification's checksum contract: drop the last
digit, reverse the remaining 13, weight 3/1 alternating from the
reversed start. -/
def specWeightedSum (s : String) : Nat :=
  altWeight true ((s.data.map charValN).dropLast.reverse)

/-- The removed (last) digit of the specification's checksum contract. -/
def specCheckDigit (s : String) : Nat :=
  (s.data.map charValN).getLastD 0

/-- Barcode-type classification as the (amended) specification words it:
EAN-13/UPC-A by length for a 12-13 digit stripped input that passes the
checksum after zero-padding; GS1-DataMatrix for an AI `01` element
together with any of batch/serial/expiry; GS1-128 for an AI `01` element
without them; Unknown otherwise. -/
def specType (stripped : List Char) (r : GS1ParsedData) : BarcodeType :=
  if linearOK stripped then
    (if stripped.length = 13 then .ean13 else .upcA)
  else if (recGet r.elements "01").isSome &&
       (optTruthy r.batchNumber || optTruthy r.serialNumber || optTruthy r.expiryDate) then
    .dataMatrix
  else if (recGet r.elements "01").isSome then .gs1_128
  else .unknown

/-- ISO-style date text assembled from year, month and day numbers the
way the date decoder formats it. -/
def mkIso (y m d : Int) : String :=
  String.mk (intToChars y ++ '-' :: pad2 (intToChars m) ++ '-' :: pad2 (intToChars d))

/-- The all-default decode result (no elements, no warnings, every
derived field at its default) echoing the given input. -/
def isDefaultResult (input : String) (r : GS1ParsedData) : Prop :=
  r = { success := false, type := .unknown, elements := [],
        isExpired := false, warnings := [], rawData := input }

/-- The concrete decode result of the C2 witness input. -/
def c2res : GS1ParsedData :=
  { success := false, type := .unknown, elements := [],
    isExpired := false, warnings := [], rawData := "]d2" }

/-- The concrete decode result of the C4 witness input. -/
def c4res : GS1ParsedData :=
  { success := true, type := .ean13,
    elements := [("01", ⟨"01", "GTIN", "04006381333931", "4006381333931", true⟩)],
    gtin := some "04006381333931",
    isExpired := false, warnings := [], rawData := "4006381333931" }

/-- The concrete decode result of the C5 witness input. -/
def c5res : GS1ParsedData :=
  { success := true, type := .ean13,
    elements := [("01", ⟨"01", "GTIN", "04006381333931", "4006381333931", true⟩)],
    gtin := some "04006381333931",
    isExpired := false, warnings := [], rawData := "4006381333931" }

/-- The concrete decode result of the C10 witness input. -/
def c10res : GS1ParsedData :=
  { success := false, type := .unknown, elements := [],
    isExpired := false, warnings := [], rawData := " ]d2 " }

/-! Verification of the claims. -/


/-- Dropping a satisfied prefix twice is the same as dropping it once. -/
theorem dropWhile_idem {α : Type} (p : α → Bool) (l : List α) :
    (l.dropWhile p).dropWhile p = l.dropWhile p := by
  induction l with
  | nil => rfl
  | cons a l ih =>
    cases h : p a with
    | true => simp [List.dropWhile_cons, h, ih]
    | false => simp [List.dropWhile_cons, h]

/-- `dropWhile` never lengthens a list. -/
theorem length_dropWhile_le {α : Type} (p : α → Bool) (l : List α) :
    (l.dropWhile p).length ≤ l.length := by
  induction l with
  | nil => simp
  | cons a l ih =>
    cases h : p a with
    | true => simp [List.dropWhile_cons, h]; omega
    | false => simp [List.dropWhile_cons, h]

/-- A list equal to its own `dropWhile` has an unsatisfied head. -/
theorem head_false_of_dropWhile_self {α : Type} {p : α → Bool} {c : α} {t : List α}
    (h : (c :: t).dropWhile p = c :: t) : p c = false := by
  cases hc : p c with
  | true =>
    rw [List.dropWhile_cons, hc] at h
    have hle := length_dropWhile_le p t
    rw [if_pos rfl] at h
    rw [h] at hle
    simp at hle
  | false => rfl

/-- A prefix of a list fixed by `dropWhile` is itself fixed. -/
theorem dropWhile_self_of_prefixed {α : Type} {p : α → Bool} {A B : List α}
    (hpre : B <+: A) (hA : A.dropWhile p = A) : B.dropWhile p = B := by
  cases B with
  | nil => rfl
  | cons c t =>
    obtain ⟨r, hr⟩ := hpre
    rw [List.cons_append] at hr
    rw [← hr] at hA
    have hc : p c = false := head_false_of_dropWhile_self hA
    rw [List.dropWhile_cons, hc]
    simp

/-- Right-trimming yields a prefix of the original list. -/
theorem revDropRev_prefixed (p : α → Bool) (l : List α) :
    (l.reverse.dropWhile p).reverse <+: l := by
  refine ⟨(l.reverse.takeWhile p).reverse, ?_⟩
  have h := congrArg List.reverse (List.takeWhile_append_dropWhile (p := p) (l := l.reverse))
  rw [List.reverse_append, List.reverse_reverse] at h
  exact h

/-- JavaScript `trim` is idempotent. -/
theorem jsTrim_idem (cs : List Char) : jsTrim (jsTrim cs) = jsTrim cs := by
  unfold jsTrim
  have hAi : ((cs.dropWhile isJsSpace).dropWhile isJsSpace) = cs.dropWhile isJsSpace :=
    dropWhile_idem _ cs
  have hB1 : (((cs.dropWhile isJsSpace).reverse.dropWhile isJsSpace).reverse).dropWhile isJsSpace
      = ((cs.dropWhile isJsSpace).reverse.dropWhile isJsSpace).reverse :=
    dropWhile_self_of_prefixed (revDropRev_prefixed _ _) hAi
  rw [hB1, List.reverse_reverse, dropWhile_idem]

/-- `splitGS` never returns the empty list of parts. -/
theorem splitGS_ne_nil (cs : List Char) : splitGS cs ≠ [] := by
  induction cs with
  | nil => simp [splitGS]
  | cons c cs ih =>
    simp only [splitGS]
    split
    · simp
    · cases h : splitGS cs with
      | nil => exact absurd h ih
      | cons p ps => simp

/-- `join` undoes `split` on the group separator. -/
theorem joinGS_splitGS (cs : List Char) : joinGS (splitGS cs) = cs := by
  induction cs with
  | nil => rfl
  | cons c cs ih =>
    simp only [splitGS]
    split
    next hgs =>
      cases h : splitGS cs with
      | nil => exact absurd h (splitGS_ne_nil cs)
      | cons p ps =>
        rw [h] at ih
        simp [joinGS, ih, hgs]
    next hgs =>
      cases h : splitGS cs with
      | nil => exact absurd h (splitGS_ne_nil cs)
      | cons p ps =>
        rw [h] at ih
        cases ps with
        | nil => simp [joinGS] at ih ⊢; simp [ih]
        | cons q qs =>
          simp [joinGS] at ih ⊢
          simp [ih]

/-- Every key of the sorted AI key list is nonempty. -/
theorem aiKeys_length_pos : ∀ ai ∈ aiKeys, 1 ≤ ai.length := by decide

/-- Sanity: the civil-day count agrees with the Unix epoch. -/
theorem civilDays_epoch : civilDays 1970 1 1 = 0 := by decide

/-- Sanity: 2025-12-31 is epoch day 20453. -/
theorem civilDays_sample : civilDays 2025 12 31 = 20453 := by decide

/-- The raw tokenizer step always strictly shortens the stream. -/
theorem rawStep_length_lt {s : List Char} {ai : String} {v n : List Char}
    (h : rawStep s = some (ai, v, n)) : n.length < s.length := by
  unfold rawStep at h
  split at h
  next => cases h
  next a hf =>
    have hf' : aiKeys.find? (fun k => k.data.isPrefixOf s) = some a := hf
    have hmem : a ∈ aiKeys := List.mem_of_find?_eq_some hf'
    have hpre := List.find?_some hf'
    have hlen : a.data.length ≤ s.length :=
      ( List.isPrefixOf_iff_prefix.mp hpre).length_le
    have hpos : 1 ≤ a.length := aiKeys_length_pos a hmem
    have hlen' : a.length ≤ s.length := hlen
    split at h
    next => cases h
    next rule hr =>
      split at h
      next nn hfx =>
        split at h
        next hc =>
          simp only [Option.some.injEq, Prod.mk.injEq] at h
          obtain ⟨rfl, rfl, rfl⟩ := h
          simp only [List.length_drop]
          omega
        next => cases h
      next hfx =>
        split at h
        next maxLen hmx =>
          split at h
          next hsp => cases h
          next p hsp =>
            split at h
            next hover =>
              split at h
              next => cases h
              next =>
                simp only [Option.some.injEq, Prod.mk.injEq] at h
                obtain ⟨rfl, rfl, rfl⟩ := h
                simp only [List.length_drop]
                omega
            next hover =>
              split at h
              next => cases h
              next hne =>
                simp only [Option.some.injEq, Prod.mk.injEq] at h
                obtain ⟨rfl, rfl, rfl⟩ := h
                simp only [List.length_nil]
                omega
          next =>
            rename_i p ps hne0 hsp
            split at h
            next => cases h
            next hne =>
              simp only [Option.some.injEq, Prod.mk.injEq] at h
              obtain ⟨rfl, rfl, rfl⟩ := h
              cases ps with
              | nil => exact absurd rfl hne0
              | cons q qs =>
                have hjoin := joinGS_splitGS (s.drop a.length)
                rw [hsp] at hjoin
                have hlj : (s.drop a.length).length =
                    p.length + 1 + (joinGS (q :: qs)).length := by
                  rw [← hjoin]
                  simp [joinGS]
                  omega
                simp only [List.length_drop] at hlj
                omega
        next => cases h

/-- The raw tokenizer loop does not depend on its fuel once the fuel
exceeds the stream length (so `stream.length + 1` is canonical and the
source `while` loop is modelled exactly). -/
theorem rawLoopF_congr : ∀ f₁ f₂ (s : List Char) (e : Elements) (w : List String),
    s.length < f₁ → s.length < f₂ → rawLoopF f₁ s e w = rawLoopF f₂ s e w := by
  intro f₁
  induction f₁ with
  | zero => intro f₂ s e w h1 h2; omega
  | succ f ih =>
    intro f₂ s e w h1 h2
    cases f₂ with
    | zero => omega
    | succ g =>
      simp only [rawLoopF]
      cases hs : s.isEmpty with
      | true => simp [hs]
      | false =>
        simp only [hs, Bool.false_eq_true, if_false]
        cases hstep : rawStep s with
        | none => rfl
        | some t =>
          obtain ⟨ai, val, nxt⟩ := t
          cases hp : processAI ai val e w with
          | none => simp only [hp]
          | some ew =>
            obtain ⟨e', w'⟩ := ew
            simp only [hp]
            have hlt := rawStep_length_lt hstep
            exact ih g nxt e' w' (by omega) (by omega)

/-- A successful head match of the bracket regex strictly shortens the
text (it consumes at least `(`, one digit, `)` and one value char). -/
theorem bracketMatchHead_lt {cs ai v rest} (h : bracketMatchHead cs = some (ai, v, rest)) :
    rest.length < cs.length := by
  unfold bracketMatchHead at h
  split at h
  next t =>
    split at h
    next => cases h
    next hds =>
      split at h
      next r2 hr1 =>
        split at h
        next => cases h
        next hv =>
          simp only [Option.some.injEq, Prod.mk.injEq] at h
          obtain ⟨rfl, rfl, rfl⟩ := h
          have h2 : r2.takeWhile (fun c => c ≠ '(') ++ r2.dropWhile (fun c => c ≠ '(') = r2 :=
            List.takeWhile_append_dropWhile ..
          have hvne : (r2.takeWhile (fun c => c ≠ '(')).length ≠ 0 := by
            simpa [List.isEmpty_iff, List.length_eq_zero] using hv
          have h3 : t.takeWhile Char.isDigit ++ t.dropWhile Char.isDigit = t :=
            List.takeWhile_append_dropWhile ..
          have hdne : (t.takeWhile Char.isDigit).length ≠ 0 := by
            simpa [List.isEmpty_iff, List.length_eq_zero] using hds
          have e2 := congrArg List.length h2
          have e3 := congrArg List.length h3
          rw [List.length_append] at e2 e3
          have e4 : t.length = (t.takeWhile Char.isDigit).length + (r2.length + 1) := by
            rw [← e3]
            congr 1
            rw [hr1]
            simp
          simp only [List.length_cons]
          omega
      next => cases h
  next => cases h

/-- The bracket-regex scan does not depend on its fuel once the fuel
reaches the text length (so `cs.length` is canonical). -/
theorem bracketMatchesF_congr : ∀ f₁ f₂ (cs : List Char),
    cs.length ≤ f₁ → cs.length ≤ f₂ → bracketMatchesF f₁ cs = bracketMatchesF f₂ cs := by
  intro f₁
  induction f₁ with
  | zero =>
    intro f₂ cs h1 h2
    have : cs = [] := by
      cases cs with
      | nil => rfl
      | cons c t => simp at h1
    subst this
    cases f₂ with
    | zero => rfl
    | succ g => rfl
  | succ f ih =>
    intro f₂ cs h1 h2
    cases f₂ with
    | zero =>
      have : cs = [] := by
        cases cs with
        | nil => rfl
        | cons c t => simp at h2
      subst this
      rfl
    | succ g =>
      simp only [bracketMatchesF]
      cases hm : bracketMatchHead cs with
      | some t =>
        obtain ⟨ai, v, rest⟩ := t
        have hlt := bracketMatchHead_lt hm
        show (ai, v) :: bracketMatchesF f rest = (ai, v) :: bracketMatchesF g rest
        rw [ih g rest (by omega) (by omega)]
      | none =>
        cases cs with
        | nil => rfl
        | cons c t =>
          show bracketMatchesF f t = bracketMatchesF g t
          exact ih g t (by simp at h1; omega) (by simp at h2; omega)

/-- Inserting into the element record never shortens it. -/
theorem recInsert_length_le (m : Elements) (k : String) (el : GS1Element) :
    m.length ≤ (recInsert m k el).length := by
  unfold recInsert
  split
  · simp
  · simp

/-- The element record is nonempty after an insertion. -/
theorem recInsert_ne_nil (m : Elements) (k : String) (el : GS1Element) :
    recInsert m k el ≠ [] := by
  unfold recInsert
  split
  next hc =>
    intro hemp
    rw [List.map_eq_nil_iff] at hemp
    subst hemp
    simp at hc
  next => simp

/-- A successful `processAI` inserts exactly one element and only
appends warnings. -/
theorem processAI_some {aiS : String} {value : List Char} {e : Elements}
    {w : List String} {e' : Elements} {w' : List String}
    (h : processAI aiS value e w = some (e', w')) :
    (∃ el, e' = recInsert e aiS el) ∧ ∃ tail, w' = w ++ tail := by
  unfold processAI at h
  split at h
  next => cases h
  next rule hr =>
    split at h
    next =>
      split at h
      next =>
        simp only [Option.some.injEq, Prod.mk.injEq] at h
        obtain ⟨rfl, rfl⟩ := h
        exact ⟨⟨_, rfl⟩, _, by rw [List.append_assoc]⟩
      next d hd =>
        simp only [Option.some.injEq, Prod.mk.injEq] at h
        obtain ⟨rfl, rfl⟩ := h
        exact ⟨⟨_, rfl⟩, _, rfl⟩
    next =>
      simp only [Option.some.injEq, Prod.mk.injEq] at h
      obtain ⟨rfl, rfl⟩ := h
      exact ⟨⟨_, rfl⟩, _, rfl⟩

/-- Elements never disappear across the bracketed-match fold. -/
theorem processMatches_length_le : ∀ (ms : List (List Char × List Char))
    (e : Elements) (w : List String) (e' : Elements) (w' : List String),
    processMatches ms e w = some (e', w') → e.length ≤ e'.length := by
  intro ms
  induction ms with
  | nil =>
    intro e w e' w' h
    simp only [processMatches, Option.some.injEq, Prod.mk.injEq] at h
    obtain ⟨rfl, rfl⟩ := h
    exact le_refl _
  | cons m rest ih =>
    intro e w e' w' h
    obtain ⟨ai, v⟩ := m
    simp only [processMatches] at h
    cases hp : processAI (String.mk ai) v e w with
    | none => rw [hp] at h; cases h
    | some ew =>
      rw [hp] at h
      obtain ⟨e1, w1⟩ := ew
      obtain ⟨⟨el, he⟩, _⟩ := processAI_some hp
      have h1 : e.length ≤ e1.length := he ▸ recInsert_length_le e _ el
      exact le_trans h1 (ih e1 w1 e' w' h)

/-- Elements never disappear across the raw tokenizer loop. -/
theorem rawLoopF_length_le : ∀ (fuel : Nat) (s : List Char)
    (e : Elements) (w : List String) (e' : Elements) (w' : List String),
    rawLoopF fuel s e w = some (e', w') → e.length ≤ e'.length := by
  intro fuel
  induction fuel with
  | zero =>
    intro s e w e' w' h
    simp only [rawLoopF, Option.some.injEq, Prod.mk.injEq] at h
    obtain ⟨rfl, rfl⟩ := h
    exact le_refl _
  | succ f ih =>
    intro s e w e' w' h
    simp only [rawLoopF] at h
    split at h
    next =>
      simp only [Option.some.injEq, Prod.mk.injEq] at h
      obtain ⟨rfl, rfl⟩ := h
      exact le_refl _
    next =>
      split at h
      next =>
        simp only [Option.some.injEq, Prod.mk.injEq] at h
        obtain ⟨rfl, rfl⟩ := h
        exact le_refl _
      next ai val nxt hstep =>
        cases hp : processAI ai val e w with
        | none => rw [hp] at h; cases h
        | some ew =>
          rw [hp] at h
          obtain ⟨e1, w1⟩ := ew
          obtain ⟨⟨el, he⟩, _⟩ := processAI_some hp
          have h1 : e.length ≤ e1.length := he ▸ recInsert_length_le e _ el
          exact le_trans h1 (ih nxt e1 w1 e' w' h)

/-- The assembler only ever produces the three composite types. -/
theorem assembleType_cases (now : Int) (e : Elements) :
    assembleType now e = .dataMatrix ∨ assembleType now e = .gs1_128 ∨
    assembleType now e = .unknown := by
  unfold assembleType
  split
  · exact Or.inl rfl
  · split
    · exact Or.inr (Or.inl rfl)
    · exact Or.inr (Or.inr rfl)

/-- C5: for every input on which decode returns, the success flag is
true exactly when at least one element was decoded and zero warnings
were recorded; in particular any warning (malformed field or unparsed
trailing segment) forces success to be false. -/
theorem c5_success_iff (now : Int) (input : String) (r : GS1ParsedData)
    (h : parseBarcode now input = some r) :
    r.success = true ↔ (r.elements ≠ [] ∧ r.warnings = []) := by
  obtain ⟨r₀, h₀, hrr⟩ := Option.map_eq_some'.mp h
  subst hrr
  unfold parseCore at h₀
  split at h₀
  next hl =>
    simp only [Option.some.injEq] at h₀
    subst h₀
    simp [earlyResult]
  next hl =>
    unfold compositeParse at h₀
    obtain ⟨ew, ht, hew⟩ := Option.map_eq_some'.mp h₀
    obtain ⟨e, w⟩ := ew
    subst hew
    show (!e.isEmpty && w.isEmpty) = true ↔ (e ≠ [] ∧ w = [])
    simp [List.isEmpty_iff]

/-- C10: decode echoes the original input (surrounding whitespace
included) in rawData, and every other field equals the corresponding
field of decode applied to the trimmed input — surrounding whitespace
never influences parsing, only the echoed rawData. -/
theorem c10_trim_and_echo (now : Int) (s : String) (r : GS1ParsedData)
    (h : parseBarcode now s = some r) :
    r.rawData = s ∧
    parseBarcode now (String.mk (jsTrim s.data)) =
      some { r with rawData := String.mk (jsTrim s.data) } := by
  obtain ⟨r₀, h₀, hrr⟩ := Option.map_eq_some'.mp h
  subst hrr
  refine ⟨rfl, ?_⟩
  unfold parseBarcode
  have ht : jsTrim (String.mk (jsTrim s.data)).data = jsTrim s.data := jsTrim_idem s.data
  rw [ht, h₀]
  rfl

/-- C4 (amended): the returned barcodeType is exactly EAN-13 or UPC-A
(by stripped-input length 13 or 12) when the 12-13 digit numeric-only
stripped input passes the checksum after zero-padding, GS1-DataMatrix
when an AI 01 element is present (valid or not) together with a truthy
batchNumber, serialNumber or expiryDate, GS1-128 when an AI 01 element
is present without them, and Unknown otherwise — formalised by
`specType`, written from the amended claim wording. -/
theorem c4_barcode_type_classification (now : Int) (input : String) (r : GS1ParsedData)
    (h : parseBarcode now input = some r) :
    r.type = specType (strippedOf input) r := by
  obtain ⟨r₀, h₀, hrr⟩ := Option.map_eq_some'.mp h
  subst hrr
  unfold parseCore at h₀
  split at h₀
  next hl =>
    simp only [Option.some.injEq] at h₀
    subst h₀
    unfold specType strippedOf
    rw [if_pos hl]
    rfl
  next hl =>
    unfold compositeParse at h₀
    obtain ⟨ew, ht, hew⟩ := Option.map_eq_some'.mp h₀
    obtain ⟨e, w⟩ := ew
    subst hew
    unfold specType strippedOf
    rw [if_neg hl]
    rfl

/-- C8: for a stripped input of exactly 12 or 13 decimal digits,
decode short-circuits into the EAN/UPC early result (type by length, a
single element for AI 01, success true) exactly when the zero-padded
14-digit form passes the checksum; otherwise it does not classify as
EAN/UPC and falls through to the composite-stream path. -/
theorem c8_linear_fast_path (now : Int) (input : String)
    (hd : (strippedOf input).all Char.isDigit = true)
    (hl : (strippedOf input).length = 12 ∨ (strippedOf input).length = 13) :
    (validateGTIN (String.mk (pad14 (strippedOf input))) = true →
       parseBarcode now input =
         some { earlyResult (strippedOf input) with rawData := input } ∧
       (earlyResult (strippedOf input)).elements.map Prod.fst = ["01"] ∧
       (earlyResult (strippedOf input)).success = true ∧
       (earlyResult (strippedOf input)).type =
         (if (strippedOf input).length = 13 then BarcodeType.ean13 else BarcodeType.upcA)) ∧
    (validateGTIN (String.mk (pad14 (strippedOf input))) = false →
       parseBarcode now input =
         (compositeParse now (strippedOf input)).map (fun r => { r with rawData := input }) ∧
       ∀ r, parseBarcode now input = some r →
         r.type ≠ BarcodeType.ean13 ∧ r.type ≠ BarcodeType.upcA) := by
  have hshape : isLinearShape (strippedOf input) = true := by
    unfold isLinearShape
    rw [hd]
    rcases hl with h | h <;> simp [h]
  constructor
  · intro hv
    have hlin : linearOK (strippedOf input) = true := by
      unfold linearOK
      rw [hshape, hv]
      rfl
    refine ⟨?_, rfl, rfl, rfl⟩
    unfold parseBarcode parseCore
    rw [show stripSymb (jsTrim input.data) = strippedOf input from rfl, if_pos hlin]
    rfl
  · intro hv
    have hlin : linearOK (strippedOf input) = false := by
      unfold linearOK
      rw [hshape, hv]
      rfl
    constructor
    · unfold parseBarcode parseCore
      rw [show stripSymb (jsTrim input.data) = strippedOf input from rfl, if_neg (by simp [hlin])]
    · intro r hr
      obtain ⟨r₀, h₀, hrr⟩ := Option.map_eq_some'.mp hr
      subst hrr
      unfold parseCore at h₀
      rw [show stripSymb (jsTrim input.data) = strippedOf input from rfl, if_neg (by simp [hlin])] at h₀
      unfold compositeParse at h₀
      obtain ⟨ew, ht, hew⟩ := Option.map_eq_some'.mp h₀
      obtain ⟨e, w⟩ := ew
      subst hew
      show (assemble now e w).type ≠ _ ∧ (assemble now e w).type ≠ _
      have hc := assembleType_cases now e
      show assembleType now e ≠ _ ∧ assembleType now e ≠ _
      rcases hc with h1 | h1 | h1 <;> rw [h1] <;> exact ⟨nofun, nofun⟩

/-- One-step unfolding of the raw tokenizer loop on a nonempty stream. -/
theorem rawLoopF_cons_succ (fuel : Nat) (c : Char) (t : List Char)
    (e : Elements) (w : List String) :
    rawLoopF (fuel + 1) (c :: t) e w =
      match rawStep (c :: t) with
      | none => some (e, w ++ [unparsedWarning (c :: t)])
      | some (ai, value, next) =>
        match processAI ai value e w with
        | none => none
        | some (e', w') => rawLoopF fuel next e' w' := by
  rfl

/-- One-step unfolding: unparsed-segment stop. -/
theorem rawLoopF_cons_none (fuel : Nat) (c : Char) (t : List Char)
    (e : Elements) (w : List String) (h : rawStep (c :: t) = none) :
    rawLoopF (fuel + 1) (c :: t) e w = some (e, w ++ [unparsedWarning (c :: t)]) := by
  rw [rawLoopF_cons_succ, h]

/-- One-step unfolding: a successful step recurses on the rest. -/
theorem rawLoopF_cons_step (fuel : Nat) (c : Char) (t : List Char)
    (e : Elements) (w : List String) (ai : String) (v nxt : List Char)
    (e1 : Elements) (w1 : List String)
    (h : rawStep (c :: t) = some (ai, v, nxt))
    (hp : processAI ai v e w = some (e1, w1)) :
    rawLoopF (fuel + 1) (c :: t) e w = rawLoopF fuel nxt e1 w1 := by
  rw [rawLoopF_cons_succ, h]
  show (match processAI ai v e w with
        | none => none
        | some (e', w') => rawLoopF fuel nxt e' w') = rawLoopF fuel nxt e1 w1
  rw [hp]

/-- One-step unfolding: a crashing field processor aborts the decode. -/
theorem rawLoopF_cons_crash (fuel : Nat) (c : Char) (t : List Char)
    (e : Elements) (w : List String) (ai : String) (v nxt : List Char)
    (h : rawStep (c :: t) = some (ai, v, nxt))
    (hp : processAI ai v e w = none) :
    rawLoopF (fuel + 1) (c :: t) e w = none := by
  rw [rawLoopF_cons_succ, h]
  show (match processAI ai v e w with
        | none => none
        | some (e', w') => rawLoopF fuel nxt e' w') = none
  rw [hp]

/-- The assembler of an empty tokenization is the all-default result. -/
theorem assemble_nil (now : Int) (input : String) :
    ({ assemble now [] [] with rawData := input } : GS1ParsedData) =
      { success := false, type := .unknown, elements := [],
        isExpired := false, warnings := [], rawData := input } := rfl

/-- C2 (amended): a result with zero elements, zero warnings and all
derived fields at their defaults occurs exactly when the input after
trimming and symbology-prefix stripping is empty, or when it enters the
bracketed path (contains both parentheses) and the bracket regex finds
no match — not only for empty or whitespace-only input. -/
theorem c2_empty_default_characterization (now : Int) (input : String) (r : GS1ParsedData)
    (h : parseBarcode now input = some r) :
    ((r.elements = [] ∧ r.warnings = []) ↔
      (strippedOf input = [] ∨
       ((strippedOf input).contains '(' = true ∧ (strippedOf input).contains ')' = true ∧
        bracketMatches (strippedOf input) = []))) ∧
    ((r.elements = [] ∧ r.warnings = []) → isDefaultResult input r) := by
  obtain ⟨r₀, h₀, hrr⟩ := Option.map_eq_some'.mp h
  subst hrr
  unfold parseCore at h₀
  rw [show stripSymb (jsTrim input.data) = strippedOf input from rfl] at h₀
  split at h₀
  next hl =>
    simp only [Option.some.injEq] at h₀
    subst h₀
    constructor
    · constructor
      · rintro ⟨he, _⟩
        simp [earlyResult] at he
      · rintro (hnil | ⟨hp, _, _⟩)
        · rw [hnil] at hl
          exact absurd hl (by decide)
        · exfalso
          have hmem : '(' ∈ strippedOf input := by
            have : List.elem '(' (strippedOf input) = true := hp
            exact List.elem_iff.mp this
          have hall : (strippedOf input).all Char.isDigit = true := by
            have := hl
            unfold linearOK isLinearShape at this
            rw [Bool.and_eq_true, Bool.and_eq_true] at this
            exact this.1.1
          have := List.all_eq_true.mp hall '(' hmem
          exact absurd this (by decide)
    · rintro ⟨he, _⟩
      simp [earlyResult] at he
  next hl =>
    unfold compositeParse at h₀
    obtain ⟨ew, htok, hew⟩ := Option.map_eq_some'.mp h₀
    obtain ⟨e, w⟩ := ew
    subst hew
    show ((e = [] ∧ w = []) ↔ _) ∧ ((e = [] ∧ w = []) → _)
    unfold tokenizeStream at htok
    split at htok
    next hbr =>
      rw [Bool.and_eq_true] at hbr
      constructor
      · constructor
        · rintro ⟨he, hw⟩
          subst he
          subst hw
          right
          refine ⟨hbr.1, hbr.2, ?_⟩
          cases hbm : bracketMatches (strippedOf input) with
          | nil => rfl
          | cons m ms =>
            exfalso
            rw [hbm] at htok
            obtain ⟨ai, v⟩ := m
            simp only [processMatches] at htok
            cases hp : processAI (String.mk ai) v [] [] with
            | none => rw [hp] at htok; cases htok
            | some ew1 =>
              rw [hp] at htok
              obtain ⟨e1, w1⟩ := ew1
              obtain ⟨⟨el, hee⟩, _⟩ := processAI_some hp
              have h1 : e1 ≠ [] := by rw [hee]; exact recInsert_ne_nil [] _ el
              have h2 := processMatches_length_le ms e1 w1 [] [] htok
              simp only [List.length_nil, Nat.le_zero, List.length_eq_zero] at h2
              exact h1 h2
        · rintro (hnil | ⟨_, _, hbm⟩)
          · exfalso
            rw [hnil] at hbr
            exact absurd hbr.1 (by decide)
          · rw [hbm] at htok
            simp only [processMatches, Option.some.injEq, Prod.mk.injEq] at htok
            exact ⟨htok.1.symm, htok.2.symm⟩
      · rintro ⟨he, hw⟩
        subst he
        subst hw
        show isDefaultResult input { assemble now [] [] with rawData := input }
        unfold isDefaultResult
        exact assemble_nil now input
    next hbr =>
      constructor
      · constructor
        · rintro ⟨he, hw⟩
          subst he
          subst hw
          left
          by_contra hne
          cases hst : strippedOf input with
          | nil => exact hne hst
          | cons c t =>
            rw [hst] at htok
            rw [show (c :: t).length + 1 = (t.length + 1) + 1 by simp] at htok
            cases hstep : rawStep (c :: t) with
            | none =>
              rw [rawLoopF_cons_none _ _ _ _ _ hstep] at htok
              simp only [Option.some.injEq, Prod.mk.injEq] at htok
              cases htok.2
            | some tr =>
              obtain ⟨ai, v, nxt⟩ := tr
              cases hp : processAI ai v [] [] with
              | none =>
                rw [rawLoopF_cons_crash _ _ _ _ _ _ _ _ hstep hp] at htok
                cases htok
              | some ew1 =>
                obtain ⟨e1, w1⟩ := ew1
                rw [rawLoopF_cons_step _ _ _ _ _ _ _ _ _ _ hstep hp] at htok
                obtain ⟨⟨el, hee⟩, _⟩ := processAI_some hp
                have h1 : e1 ≠ [] := by rw [hee]; exact recInsert_ne_nil [] _ el
                have h2 := rawLoopF_length_le _ _ e1 w1 [] [] htok
                simp only [List.length_nil, Nat.le_zero, List.length_eq_zero] at h2
                exact h1 h2
        · rintro (hnil | ⟨hp, hq, _⟩)
          · rw [hnil] at htok
            have h2 : (some (([] : Elements), ([] : List String)) :
                Option (Elements × List String)) = some (e, w) := htok
            simp only [Option.some.injEq, Prod.mk.injEq] at h2
            exact ⟨h2.1.symm, h2.2.symm⟩
          · exfalso
            exact hbr (by rw [hp, hq]; rfl)
      · rintro ⟨he, hw⟩
        subst he
        subst hw
        show isDefaultResult input { assemble now [] [] with rawData := input }
        unfold isDefaultResult
        exact assemble_nil now input

/-! C9 infrastructure: longest-prefix-first key selection. -/

/-- The sorted key list is ordered by non-increasing length. -/
theorem aiKeys_sorted : aiKeys.Pairwise (fun x y => y.length ≤ x.length) := by decide

/-- Every key of the rule table occurs in the sorted key list. -/
theorem keys_mem_aiKeys : ∀ k ∈ AI_RULES.map Prod.fst, k ∈ aiKeys := by decide

/-- Every entry of the sorted key list is a key of the rule table. -/
theorem aiKeys_mem_keys : ∀ k ∈ aiKeys, k ∈ AI_RULES.map Prod.fst := by decide

/-- The sorted key list has no duplicates, so together with the two
inclusions it is a permutation of the rule-table keys. -/
theorem aiKeys_nodup : aiKeys.Nodup := by decide

/-- The sorted key list has exactly one entry per rule-table key. -/
theorem aiKeys_length_eq : aiKeys.length = AI_RULES.length := by decide

/-- A successful rule lookup means the code is in the sorted key list. -/
theorem lookupRule_isSome_mem {ai : String} (h : (lookupRule ai).isSome = true) :
    ai ∈ aiKeys := by
  unfold lookupRule at h
  cases hf : AI_RULES.find? (fun p => p.1 == ai) with
  | none => rw [hf] at h; cases h
  | some pr =>
    have hp := List.find?_some hf
    have hmem := List.mem_of_find?_eq_some hf
    have heq : pr.1 = ai := by simpa using hp
    subst heq
    exact keys_mem_aiKeys pr.1 (List.mem_map_of_mem Prod.fst hmem)

/-- In a list sorted by non-increasing length, `find?` returns an
element of maximal length among those satisfying the predicate. -/
theorem sorted_find_max {p : String → Bool} :
    ∀ {l : List String} {a : String},
    l.Pairwise (fun x y => y.length ≤ x.length) → l.find? p = some a →
    ∀ b ∈ l, p b = true → b.length ≤ a.length := by
  intro l
  induction l with
  | nil => intro a _ hf; cases hf
  | cons x xs ih =>
    intro a hsort hf b hb hpb
    rw [List.find?_cons] at hf
    obtain ⟨hx, hxs⟩ := List.pairwise_cons.mp hsort
    cases hpx : p x with
    | true =>
      rw [hpx] at hf
      simp only [Option.some.injEq] at hf
      subst hf
      rcases List.mem_cons.mp hb with rfl | hb2
      · exact le_refl _
      · exact hx b hb2
    | false =>
      rw [hpx] at hf
      rcases List.mem_cons.mp hb with rfl | hb2
      · rw [hpb] at hpx; cases hpx
      · exact ih hxs hf b hb2 hpb

/-- Equal-length prefixes of the same stream are the same string. -/
theorem prefix_eq_of_length_eq {a b : String} {s : List Char}
    (ha : a.data <+: s) (hb : b.data <+: s) (hl : a.length = b.length) : a = b := by
  have h1 : a.data = s.take a.data.length := List.prefix_iff_eq_take.mp ha
  have h2 : b.data = s.take b.data.length := List.prefix_iff_eq_take.mp hb
  have hl2 : a.data.length = b.data.length := hl
  have : a.data = b.data := by rw [h1, h2, hl2]
  exact congrArg String.mk this

/-- A successful raw step uses exactly the key `findAI` selected. -/
theorem rawStep_findAI {s : List Char} {a : String} {v n : List Char}
    (h : rawStep s = some (a, v, n)) : findAI s = some a := by
  unfold rawStep at h
  split at h
  next => cases h
  next a0 hf =>
    rw [hf]
    split at h
    next => cases h
    next rule hr =>
      split at h
      next nn hfx =>
        split at h
        next =>
          simp only [Option.some.injEq, Prod.mk.injEq] at h
          obtain ⟨rfl, -, -⟩ := h
          rfl
        next => cases h
      next hfx =>
        split at h
        next maxLen hmx =>
          split at h
          next hsp => cases h
          next hd hsp =>
            split at h
            next =>
              split at h
              next => cases h
              next =>
                simp only [Option.some.injEq, Prod.mk.injEq] at h
                obtain ⟨rfl, -, -⟩ := h
                rfl
            next =>
              split at h
              next => cases h
              next =>
                simp only [Option.some.injEq, Prod.mk.injEq] at h
                obtain ⟨rfl, -, -⟩ := h
                rfl
          next =>
            rename_i p ps hne0 hsp
            split at h
            next => cases h
            next =>
              simp only [Option.some.injEq, Prod.mk.injEq] at h
              obtain ⟨rfl, -, -⟩ := h
              rfl
        next => cases h

/-- C9: in the raw tokenizer, the AI code selected for the remaining
stream is a matching code of greatest length among all codes of the
rule table that are a prefix of the stream (strictly greatest among the
other matching codes), and a successful raw step applies exactly that
code. -/
theorem c9_longest_prefix_selection (stream : List Char) (ai : String) (h : findAI stream = some ai) :
    ai.data.isPrefixOf stream = true ∧
    (∀ aiB : String, (lookupRule aiB).isSome = true →
      aiB.data.isPrefixOf stream = true →
      aiB.length ≤ ai.length ∧ (aiB ≠ ai → aiB.length < ai.length)) ∧
    (∀ a v n, rawStep stream = some (a, v, n) → a = ai) := by
  have hf' : aiKeys.find? (fun k => k.data.isPrefixOf stream) = some ai := h
  have hpre := List.find?_some hf'
  refine ⟨hpre, ?_, ?_⟩
  · intro aiB hB hpB
    have hmax := sorted_find_max aiKeys_sorted hf' aiB (lookupRule_isSome_mem hB) hpB
    refine ⟨hmax, fun hne => ?_⟩
    rcases Nat.lt_or_ge aiB.length ai.length with hlt | hge
    · exact hlt
    · have heq : aiB.length = ai.length := Nat.le_antisymm hmax hge
      exact absurd (prefix_eq_of_length_eq ( List.isPrefixOf_iff_prefix.mp hpB)
        ( List.isPrefixOf_iff_prefix.mp hpre) heq) hne
  · intro a v n hstep
    have h2 := rawStep_findAI hstep
    rw [h] at h2
    exact (Option.some.inj h2).symm

/-! C6 infrastructure: the checksum contract. -/

/-- The indexed reduce of source `validateGTIN` is the alternating
3/1-weighted sum of the specification. -/
theorem jsReduceSum_altWeight : ∀ (l : List Nat) (idx acc : Nat),
    jsReduceSum l idx acc = acc + altWeight (decide (idx % 2 = 0)) l := by
  intro l
  induction l with
  | nil => intro idx acc; simp [jsReduceSum, altWeight]
  | cons d r ih =>
    intro idx acc
    simp only [jsReduceSum, altWeight]
    rw [ih]
    have hpar : (decide ((idx + 1) % 2 = 0)) = !(decide (idx % 2 = 0)) := by
      rcases Nat.mod_two_eq_zero_or_one idx with hm | hm <;>
        simp [Nat.add_mod, hm]
    rw [hpar]
    rcases Nat.mod_two_eq_zero_or_one idx with hm | hm <;>
      simp [hm] <;> ring

/-- `((sum + 9) / 10) * 10` is the least multiple of ten that is at
least `sum`. -/
theorem nearestTen_least (sum : Nat) :
    10 ∣ ((sum + 9) / 10) * 10 ∧ sum ≤ ((sum + 9) / 10) * 10 ∧
    ∀ k, 10 ∣ k → sum ≤ k → ((sum + 9) / 10) * 10 ≤ k := by
  refine ⟨⟨(sum + 9) / 10, Nat.mul_comm _ _⟩, by omega, ?_⟩
  intro k hk hsk
  obtain ⟨j, rfl⟩ := hk
  omega

/-- C6: the checksum validator returns false (without error) whenever
the input is not exactly 14 decimal digits; for a 14-digit input it
returns true exactly when the removed last digit equals M minus the
weighted sum, where the weighted sum weighs the reversed first 13
digits alternately 3 and 1 from the reversed start, and M is the
smallest multiple of 10 that is at least that sum. -/
theorem c6_checksum_validator_contract (s : String) :
    (¬ (s.length = 14 ∧ s.data.all Char.isDigit = true) → validateGTIN s = false) ∧
    ((s.length = 14 ∧ s.data.all Char.isDigit = true) →
      (validateGTIN s = true ↔
        ∃ M, 10 ∣ M ∧ specWeightedSum s ≤ M ∧
          (∀ k, 10 ∣ k → specWeightedSum s ≤ k → M ≤ k) ∧
          specCheckDigit s = M - specWeightedSum s)) := by
  have hsum : jsReduceSum (s.data.map charValN).dropLast.reverse 0 0 = specWeightedSum s := by
    rw [jsReduceSum_altWeight]
    simp [specWeightedSum]
  constructor
  · intro hno
    have hno2 : ¬ (s.data.length = 14 ∧ s.data.all Char.isDigit = true) := hno
    unfold validateGTIN
    rw [if_neg hno2]
  · intro hyes
    have hyes2 : s.data.length = 14 ∧ s.data.all Char.isDigit = true := hyes
    unfold validateGTIN
    rw [if_pos hyes2, hsum]
    rw [beq_iff_eq]
    obtain ⟨hdvd, hge, hmin⟩ := nearestTen_least (specWeightedSum s)
    constructor
    · intro hcd
      exact ⟨((specWeightedSum s + 9) / 10) * 10, hdvd, hge, hmin, hcd⟩
    · rintro ⟨M, hMd, hMge, hMmin, hMcd⟩
      have hMeq : M = ((specWeightedSum s + 9) / 10) * 10 :=
        Nat.le_antisymm (hMmin _ hdvd hge) (hmin M hMd hMge)
      rw [← hMeq]
      exact hMcd

/-! C7 infrastructure: the date decoder contract. -/

/-- Decimal bounds of the code point of a digit character. -/
theorem digit_toNat_bounds {c : Char} (h : c.isDigit = true) :
    48 ≤ c.toNat ∧ c.toNat ≤ 57 := by
  simp [Char.isDigit] at h
  exact ⟨h.1, h.2⟩

/-- The value of a digit character is below ten. -/
theorem charValN_lt_ten {c : Char} (h : c.isDigit = true) : charValN c < 10 := by
  obtain ⟨h1, h2⟩ := digit_toNat_bounds h
  unfold charValN
  omega

/-- A digit character is not `parseInt` whitespace. -/
theorem digit_not_space {c : Char} (h : c.isDigit = true) : isJsSpace c = false := by
  cases hs : isJsSpace c with
  | false => rfl
  | true =>
    exfalso
    unfold isJsSpace at hs
    simp only [Bool.or_eq_true, beq_iff_eq] at hs
    casesm* _ ∨ _ <;> subst_vars <;> exact absurd h (by decide)

/-- A digit character is none of the sign or hex marker characters. -/
theorem digit_ne_signs {c : Char} (h : c.isDigit = true) :
    c ≠ '-' ∧ c ≠ '+' ∧ c ≠ 'x' ∧ c ≠ 'X' := by
  refine ⟨?_, ?_, ?_, ?_⟩ <;> intro he <;> subst he <;> exact absurd h (by decide)

/-- `parseInt` on a two-digit text is the two-digit value. -/
theorem parseIntJS_two_digits {a b : Char} (ha : a.isDigit = true) (hb : b.isDigit = true) :
    parseIntJS [a, b] = some ((10 * charValN a + charValN b : Nat) : Int) := by
  obtain ⟨hna, _, _, _⟩ := digit_ne_signs ha
  obtain ⟨_, _, hbx, hbX⟩ := digit_ne_signs hb
  unfold parseIntJS
  rw [show ([a, b].dropWhile isJsSpace) = [a, b] by
    rw [List.dropWhile_cons, digit_not_space ha]; simp]
  show (if a = '-' then _ else if a = '+' then _ else
    (parseUnsigned (a :: [b])).map (fun n => (n : Int))) = _
  rw [if_neg hna, if_neg (digit_ne_signs ha).2.1]
  have hhex : isHexIndicator [a, b] = false := by
    unfold isHexIndicator
    show (a == '0' && (b == 'x' || b == 'X')) = false
    have h1 : (b == 'x') = false := by simpa using hbx
    have h2 : (b == 'X') = false := by simpa using hbX
    rw [h1, h2]
    simp
  unfold parseUnsigned
  rw [hhex]
  simp only [Bool.false_eq_true, if_false]
  unfold parseDigitsFirst
  rw [show ([a, b].takeWhile Char.isDigit) = [a, b] by
    rw [List.takeWhile_cons, ha]; simp [hb]]
  simp only [List.isEmpty_cons, Bool.false_eq_true, if_false]
  show some (((0 * 10 + (a.toNat - 48)) * 10 + (b.toNat - 48) : Nat) : Int) =
    some ((10 * charValN a + charValN b : Nat) : Int)
  simp only [Option.some.injEq]
  unfold charValN
  omega

/-- `new Date(2000 + yy, mm, 0).getDate()` is the number of days of
month `mm` of year `2000 + yy` for a real month number. -/
theorem lastDay_norm : ∀ yy < 100, ∀ mm < 13, 1 ≤ mm →
    jsLastDayOfPrevMonth (some (2000 + (yy : Nat) : Int)) (some ((mm : Nat) : Int)) =
      some (daysInMonth (2000 + (yy : Nat)) (mm : Nat)) := by decide

/-- For two-digit years the day-00 lookup year `2000 + yy` and the
pivoted year have the same month lengths. -/
theorem daysInMonth_pivot : ∀ yy < 100, ∀ mm < 13, 1 ≤ mm →
    daysInMonth (2000 + (yy : Nat) : Int) (mm : Nat) =
      daysInMonth (if 70 < (yy : Nat) then 1900 + (yy : Nat) else 2000 + (yy : Nat) : Int)
        (mm : Nat) := by decide

/-- The pivot applied to a parsed numeric year. -/
theorem pivotYear_val (Y : Nat) :
    pivotYear (some (Y : Int)) =
      some (if 70 < Y then 1900 + (Y : Int) else 2000 + (Y : Int)) := by
  have hg : jsGt (some (Y : Int)) 70 = decide (70 < Y) := by
    have hiff : (70 < (Y : Int)) ↔ 70 < Y := by exact_mod_cast Iff.rfl
    show decide (70 < (Y : Int)) = decide (70 < Y)
    exact decide_eq_decide.mpr hiff
  unfold pivotYear
  rw [hg]
  by_cases hp : 70 < Y
  · simp [hp, jsAdd]
  · simp [hp, jsAdd]

/-- Day resolution keeps a nonzero day. -/
theorem resolvedDay_ne (Y M D : Nat) (hD : D ≠ 0) :
    resolvedDay (some (Y : Int)) (some (M : Int)) (some (D : Int)) = some (D : Int) := by
  unfold resolvedDay
  rw [if_neg]
  intro he
  simp only [Option.some.injEq, Int.natCast_eq_zero] at he
  exact hD he

/-- Day `00` resolves to the month length of `2000 + yy`. -/
theorem resolvedDay_zero (Y M : Nat) (hY : Y < 100) (hM1 : 1 ≤ M) (hM2 : M < 13) :
    resolvedDay (some (Y : Int)) (some (M : Int)) (some ((0 : Nat) : Int)) =
      some (daysInMonth (2000 + (Y : Nat)) (M : Nat)) := by
  unfold resolvedDay
  rw [if_pos (by simp : (some ((0 : Nat) : Int) : JSNum) = some 0)]
  show jsLastDayOfPrevMonth (some (2000 + (Y : Nat) : Int)) (some (M : Int)) = _
  exact lastDay_norm Y hY M hM2 hM1

/-- The formatted ISO text for parsed digits and a nonzero day. -/
theorem dateIso_vals (Y M D : Nat) (hD : D ≠ 0) :
    dateIso (some (Y : Int)) (some (M : Int)) (some (D : Int)) =
      mkIso (if 70 < Y then 1900 + (Y : Int) else 2000 + (Y : Int)) (M : Int) (D : Int) := by
  unfold dateIso mkIso
  rw [pivotYear_val, resolvedDay_ne _ _ _ hD]
  simp [jsNumChars]

/-- The formatted ISO text for parsed digits and day `00`: the day
becomes the last day of the month, and for two-digit years the pivoted
year has the same month length. -/
theorem dateIso_vals_zero (Y M : Nat) (hY : Y < 100) (hM1 : 1 ≤ M) (hM2 : M < 13) :
    dateIso (some (Y : Int)) (some (M : Int)) (some ((0 : Nat) : Int)) =
      mkIso (if 70 < Y then 1900 + (Y : Int) else 2000 + (Y : Int)) (M : Int)
        (daysInMonth (if 70 < Y then 1900 + (Y : Int) else 2000 + (Y : Int)) (M : Int)) := by
  unfold dateIso mkIso
  rw [pivotYear_val, resolvedDay_zero Y M hY hM1 hM2, daysInMonth_pivot Y hY M hM2 hM1]
  simp [jsNumChars]

/-- Month-index normalisation of new Date for a real month number. -/
theorem jsDateDays_inrange (fy : Int) (M : Nat) (hM1 : 1 ≤ M) (hM2 : M ≤ 12) (dd : Int) :
    jsDateDays (some fy) (some ((M : Int) - 1)) (some dd) =
      some (civilDays fy (M : Int) 1 + (dd - 1)) := by
  show some (civilDays ((fy * 12 + ((M : Int) - 1)) / 12)
        ((fy * 12 + ((M : Int) - 1)) % 12 + 1) 1 + (dd - 1)) = _
  have h1 : (fy * 12 + ((M : Int) - 1)) / 12 = fy := by omega
  have h2 : (fy * 12 + ((M : Int) - 1)) % 12 + 1 = (M : Int) := by omega
  rw [h1, h2]

/-- The end-of-day timestamp for parsed digits, a real month number and
a nonzero day: the calendar date uses the pivoted year. -/
theorem dateMs_vals (Y M D : Nat) (hD : D ≠ 0) (hM1 : 1 ≤ M) (hM2 : M ≤ 12) :
    dateMsOf (some (Y : Int)) (some (M : Int)) (some (D : Int)) =
      some ((civilDays (if 70 < Y then 1900 + (Y : Int) else 2000 + (Y : Int)) (M : Int) 1 +
             ((D : Int) - 1)) * 86400000 + 86399999) := by
  unfold dateMsOf
  rw [pivotYear_val, resolvedDay_ne _ _ _ hD]
  show (jsDateDays (some (if 70 < Y then 1900 + (Y : Int) else 2000 + (Y : Int)))
        (some ((M : Int) - 1)) (some (D : Int))).map _ = _
  rw [jsDateDays_inrange _ M hM1 hM2 (D : Int)]
  rfl

/-- C7: the date decoder fails exactly when the input is shorter than
6 characters; reading a digit input as YYMMDD, the returned ISO text
uses year 1900+YY when YY > 70 and 2000+YY otherwise, and a day field
of 00 is resolved to the last calendar day of that month and year
(for example 170200 yields 2017-02-28, see the witness); for a real
month and a nonzero day the returned end-of-day timestamp is that of
the calendar date with the pivoted year. -/
theorem c7_date_decoder_contract (now : Int) (s : String) :
    (parseGS1Date now s.data = none ↔ s.length < 6) ∧
    (∀ c0 c1 c2 c3 c4 c5 rest, s.data = c0 :: c1 :: c2 :: c3 :: c4 :: c5 :: rest →
      c0.isDigit = true → c1.isDigit = true → c2.isDigit = true →
      c3.isDigit = true → c4.isDigit = true → c5.isDigit = true →
      ∀ yy mm dd : Nat,
        yy = 10 * charValN c0 + charValN c1 →
        mm = 10 * charValN c2 + charValN c3 →
        dd = 10 * charValN c4 + charValN c5 →
        ∀ fy : Int, fy = (if 70 < yy then 1900 + (yy : Int) else 2000 + (yy : Int)) →
        (dd ≠ 0 →
          (parseGS1Date now s.data).map (fun d => d.iso) =
            some (mkIso fy (mm : Int) (dd : Int))) ∧
        (dd = 0 → 1 ≤ mm → mm ≤ 12 →
          (parseGS1Date now s.data).map (fun d => d.iso) =
            some (mkIso fy (mm : Int) (daysInMonth fy (mm : Int)))) ∧
        (dd ≠ 0 → 1 ≤ mm → mm ≤ 12 →
          (parseGS1Date now s.data).map (fun d => d.dateMs) =
            some (some ((civilDays fy (mm : Int) 1 + ((dd : Int) - 1)) * 86400000 +
              86399999)))) := by
  constructor
  · unfold parseGS1Date parseGS1DateCore
    by_cases h6 : s.data.length < 6
    · rw [if_pos h6]
      exact iff_of_true rfl h6
    · rw [if_neg h6]
      exact iff_of_false (by simp) h6
  · intro c0 c1 c2 c3 c4 c5 rest hs h0 h1 h2 h3 h4 h5 yy mm dd hyy hmm hdd fy hfy
    have hyy99 : yy < 100 := by
      have := charValN_lt_ten h0
      have := charValN_lt_ten h1
      omega
    have hcore : parseGS1DateCore (c0 :: c1 :: c2 :: c3 :: c4 :: c5 :: rest) =
        some ⟨dateIso (some (yy : Int)) (some (mm : Int)) (some (dd : Int)),
              dateMsOf (some (yy : Int)) (some (mm : Int)) (some (dd : Int))⟩ := by
      unfold parseGS1DateCore
      rw [if_neg (by simp)]
      rw [show (c0 :: c1 :: c2 :: c3 :: c4 :: c5 :: rest).take 2 = [c0, c1] from rfl,
          show ((c0 :: c1 :: c2 :: c3 :: c4 :: c5 :: rest).drop 2).take 2 = [c2, c3] from rfl,
          show ((c0 :: c1 :: c2 :: c3 :: c4 :: c5 :: rest).drop 4).take 2 = [c4, c5] from rfl,
          parseIntJS_two_digits h0 h1, parseIntJS_two_digits h2 h3,
          parseIntJS_two_digits h4 h5, ← hyy, ← hmm, ← hdd]
    rw [hs]
    refine ⟨?_, ?_, ?_⟩
    · intro hdd0
      unfold parseGS1Date
      rw [hcore]
      simp only [Option.map_some']
      rw [dateIso_vals yy mm dd hdd0, ← hfy]
    · intro hdd0 hm1 hm2
      subst hdd0
      unfold parseGS1Date
      rw [hcore]
      simp only [Option.map_some']
      rw [dateIso_vals_zero yy mm hyy99 hm1 (by omega), ← hfy]
    · intro hdd0 hm1 hm2
      unfold parseGS1Date
      rw [hcore]
      simp only [Option.map_some']
      rw [dateMs_vals yy mm dd hdd0 hm1 hm2, ← hfy]

/-! Concrete claim theorems, counterexamples and witnesses. -/

/-- C1: decoding the composite input 01003614145678901725123110BATCH001
yields gtin 00361414567890 (whose checksum fails), batchNumber
BATCH001, type GS1-DataMatrix, success false with exactly one checksum
warning — but expiryDate is "2020-25--1", not "2025-12-31": the result
assembler re-runs the date decoder on the already ISO-formatted element
value "2025-12-31" instead of the raw value "251231" (which decodes to
"2025-12-31"), contradicting the claim. -/
theorem c1_composite_decode_eval (now : Int) :
    (parseBarcode now "01003614145678901725123110BATCH001").map
      (fun r => (r.gtin, r.expiryDate, r.batchNumber, r.type, r.success, r.warnings)) =
      some (some "00361414567890", some "2020-25--1", some "BATCH001",
            BarcodeType.dataMatrix, false, ["Invalid GTIN Check Digit"]) ∧
    (parseBarcode now "01003614145678901725123110BATCH001").map
      (fun r => (recGet r.elements "17").map (fun el => (el.rawValue, el.value))) =
      some (some ("251231", "2025-12-31")) ∧
    (parseGS1DateCore ("251231" : String).data).map (fun d => d.iso) = some "2025-12-31" ∧
    (parseGS1DateCore ("2025-12-31" : String).data).map (fun d => d.iso) = some "2020-25--1" :=
  ⟨rfl, rfl, rfl, rfl⟩

/-- C2 counterexample: the input "]d2" (a bare symbology prefix) is
neither empty nor whitespace-only, yet decodes to the empty result with
zero elements, zero warnings and all defaults — refuting the claim that
only empty or whitespace-only input does. -/
theorem c2_counterexample :
    parseBarcode 0 "]d2" = some c2res ∧
    c2res.elements = [] ∧ c2res.warnings = [] ∧ isDefaultResult "]d2" c2res ∧
    ("]d2" : String) ≠ "" ∧ (("]d2" : String).data.all isJsSpace) = false :=
  ⟨rfl, rfl, rfl, rfl, by decide, by decide⟩

/-- Witness for C2 at the concrete input "]d2". -/
theorem c2_empty_default_witness :
    parseBarcode 0 "]d2" = some c2res ∧ strippedOf "]d2" = [] ∧
    isDefaultResult "]d2" c2res := by
  refine ⟨rfl, by decide, ?_⟩
  exact (c2_empty_default_characterization 0 "]d2" c2res rfl).2 ⟨rfl, rfl⟩

/-- C3 counterexample: the two inputs quoted by the claim carry
different AI 01 payloads, so they decode to different gtins
("00036141456789" versus "00361414567890"), refuting the claimed
equality for this pair. -/
theorem c3_counterexample :
    (parseBarcode 0 "(01)00036141456789(17)251231(10)BATCH001").map (fun r => r.gtin) =
      some (some "00036141456789") ∧
    (parseBarcode 0 "01003614145678901725123110BATCH001").map (fun r => r.gtin) =
      some (some "00361414567890") ∧
    (parseBarcode 0 "(01)00036141456789(17)251231(10)BATCH001").map (fun r => r.gtin) ≠
      (parseBarcode 0 "01003614145678901725123110BATCH001").map (fun r => r.gtin) :=
  ⟨rfl, rfl, by decide⟩

/-- C3 (amended): with the bracketed input carrying the same AI 01
payload, "(01)00361414567890(17)251231(10)BATCH001" and the raw stream
"01003614145678901725123110BATCH001" decode to the same gtin, the same
expiryDate and the same batchNumber. -/
theorem c3_tokenizer_paths_agree (now : Int) :
    (parseBarcode now "(01)00361414567890(17)251231(10)BATCH001").map
      (fun r => (r.gtin, r.expiryDate, r.batchNumber)) =
    (parseBarcode now "01003614145678901725123110BATCH001").map
      (fun r => (r.gtin, r.expiryDate, r.batchNumber)) := rfl

/-- C4 counterexample: the composite input decodes to type
GS1-DataMatrix although its AI 01 element fails the checksum
(isValid false), refuting the claim that DataMatrix requires a valid
AI 01 element. -/
theorem c4_counterexample :
    (parseBarcode 0 "01003614145678901725123110BATCH001").map
      (fun r => (r.type, (recGet r.elements "01").map (fun el => el.isValid), r.batchNumber)) =
      some (BarcodeType.dataMatrix, some false, some "BATCH001") := rfl

/-- Witness for C4 at the concrete input 4006381333931. -/
theorem c4_barcode_type_witness :
    parseBarcode 0 "4006381333931" = some c4res ∧
    c4res.type = specType (strippedOf "4006381333931") c4res :=
  ⟨rfl, c4_barcode_type_classification 0 "4006381333931" c4res rfl⟩

/-- Witness for C5 at the concrete input 4006381333931. -/
theorem c5_success_iff_witness :
    parseBarcode 0 "4006381333931" = some c5res ∧ c5res.success = true := by
  refine ⟨rfl, ?_⟩
  exact (c5_success_iff 0 "4006381333931" c5res rfl).mpr ⟨by decide, rfl⟩

/-- Witness for C6 at the concrete inputs "123" (not 14 digits) and
"00036141456789" (valid checksum, weighted sum 101, M = 110). -/
theorem c6_checksum_validator_witness :
    validateGTIN "123" = false ∧ validateGTIN "00036141456789" = true := by
  constructor
  · exact (c6_checksum_validator_contract "123").1 (by decide)
  · refine ((c6_checksum_validator_contract "00036141456789").2 (by decide)).mpr ?_
    refine ⟨110, by decide, by decide, ?_, by decide⟩
    intro k hk hle
    obtain ⟨j, rfl⟩ := hk
    have h101 : specWeightedSum "00036141456789" = 101 := by decide
    rw [h101] at hle
    omega

/-- Witness for C7 at the concrete input "170200": day 00 of February
2017 resolves to 2017-02-28. -/
theorem c7_date_decoder_witness :
    (parseGS1Date 0 ("170200" : String).data).map (fun d => d.iso) =
      some (mkIso 2017 2 (daysInMonth 2017 2)) ∧
    mkIso 2017 2 (daysInMonth 2017 2) = "2017-02-28" := by
  constructor
  · have h := ((c7_date_decoder_contract 0 "170200").2 '1' '7' '0' '2' '0' '0' [] rfl
      (by decide) (by decide) (by decide) (by decide) (by decide) (by decide)
      17 2 0 (by decide) (by decide) (by decide) 2017 (by decide)).2.1
      rfl (by decide) (by decide)
    simpa using h
  · decide

/-- Witness for C8 at the concrete 13-digit input 4006381333931. -/
theorem c8_linear_fast_path_witness :
    ((strippedOf "4006381333931").all Char.isDigit = true ∧
     (strippedOf "4006381333931").length = 13) ∧
    validateGTIN (String.mk (pad14 (strippedOf "4006381333931"))) = true ∧
    parseBarcode 0 "4006381333931" =
      some { earlyResult (strippedOf "4006381333931") with rawData := "4006381333931" } := by
  refine ⟨⟨by decide, by decide⟩, by decide, ?_⟩
  exact ((c8_linear_fast_path 0 "4006381333931" (by decide) (Or.inr (by decide))).1 (by decide)).1

/-- Witness for C9 on the stream of the composite test input, where
the key 01 is selected. -/
theorem c9_longest_prefix_witness :
    findAI ("01003614145678901725123110BATCH001" : String).data = some "01" ∧
    ("01" : String).data.isPrefixOf ("01003614145678901725123110BATCH001" : String).data = true := by
  refine ⟨by decide, ?_⟩
  exact (c9_longest_prefix_selection ("01003614145678901725123110BATCH001" : String).data "01" (by decide)).1

/-- Witness for C10 at the concrete input " ]d2 " with surrounding
spaces. -/
theorem c10_trim_and_echo_witness :
    parseBarcode 0 " ]d2 " = some c10res ∧
    c10res.rawData = " ]d2 " ∧
    parseBarcode 0 (String.mk (jsTrim (" ]d2 " : String).data)) =
      some { c10res with rawData := String.mk (jsTrim (" ]d2 " : String).data) } := by
  have h := c10_trim_and_echo 0 " ]d2 " c10res rfl
  exact ⟨rfl, h.1, h.2⟩

end GS1
